import Mathlib

/-!
Verification development for the grid shooting game `flyboy.py`.

The embedding below translates the game's data model and operations into
Lean. Grid cells are characters; entity positions are integers (Python
integers are unbounded and bullets can be spawned at coordinate -1).
Python list indexing semantics (negative indices wrap when in range
`[-len, 0)`, indices `≥ len` raise `IndexError`) are modelled by `pyIdx`.
Python's `random.random()` draws are modelled as natural-number hundredths
of the unit interval (a draw `r : Nat` stands for the real value `r / 100`),
so the source's threshold comparisons `random.random() < 0.1` and
`random.random() < 0.4` become `r < 10` and `r < 40`; both thresholds are
exactly representable and every branch-outcome pattern of the source's
comparisons is realisable by such draws. The `random` source itself is
passed explicitly as a function `Nat → Nat` together with a cursor index,
consumed left to right exactly as the source calls `random.random()`.

Exceptions are modelled by result constructors: `CollisionException`
becomes the `collision`/`collided` constructors carrying the occupying
entity, `IndexError` (and the base class `NotImplementedError`) become
`crash`, and `sys.exit(0)` after the death message becomes the `exited`
constructor. Printed notifications are accumulated as structured `Note`
values in the game state.
-/

namespace Flyboy

/-- Grid width, `WIDTH = 80` in the source. -/
def WIDTH : Nat := 80

/-- Grid height, `HEIGHT = 20` in the source. -/
def HEIGHT : Nat := 20

/-- The map is a list of rows, each row a list of character cells. -/
abbrev Grid := List (List Char)

/-- Python list-index resolution: an index `i` with `0 ≤ i < len` resolves
to itself, an index with `-len ≤ i < 0` wraps to `i + len`, anything else
raises `IndexError` (modelled as `none`). -/
def pyIdx (len : Nat) (i : Int) : Option Nat :=
  if 0 ≤ i ∧ i < (len : Int) then some i.toNat
  else if -(len : Int) ≤ i ∧ i < 0 then some (i + (len : Int)).toNat
  else none

/-- Translation of `Object.render`: the assignment `map[y][x] = c` with
Python indexing semantics. Returns `none` when the assignment raises
`IndexError`. -/
def gridRender (g : Grid) (x y : Int) (c : Char) : Option Grid :=
  match pyIdx g.length y with
  | none => none
  | some r =>
    match g[r]? with
    | none => none
    | some row =>
      match pyIdx row.length x with
      | none => none
      | some cx => some (g.set r (row.set cx c))

/-- Plain (non-wrapping) cell lookup, used only to state properties about
grids. -/
def cellAt (g : Grid) (x y : Nat) : Option Char :=
  (g[y]?).bind fun row => row[x]?

/-- Well-formed grid: `HEIGHT` rows of `WIDTH` cells, as built at start-up. -/
def gridWF (g : Grid) : Prop :=
  g.length = HEIGHT ∧ ∀ row ∈ g, row.length = WIDTH

/-- The dynamic class of a game object: the base `Object` class (only the
player is a plain object), `Mob`, or `Bullet`. -/
inductive Kind where
  | plain
  | mob
  | bullet
deriving DecidableEq

/-- A game object. Python objects are compared by identity; identity is
modelled by the `id` field (fresh objects receive fresh ids). Only bullets
use the velocity fields `dx`, `dy`; they are `0` on other objects. -/
structure Obj where
  id : Nat
  x : Int
  y : Int
  character : Char
  kind : Kind
  dx : Int
  dy : Int
deriving DecidableEq

/-- A printed notification: `"%s died."` for a struck mob or bullet
(identified by its id), or `"You died."`. -/
inductive Note where
  | killed (victim : Nat)
  | youDied
deriving DecidableEq

/-- The global game state: the map, the `player` global, the `mobs` list
(the live-entity set, holding mobs and bullets), a counter supplying fresh
object identities, and the notifications printed so far. -/
structure GState where
  grid : Grid
  player : Obj
  mobs : List Obj
  nextId : Nat
  notes : List Note
deriving DecidableEq

/-- Translation of `Object.detect_collision`: scan the `mobs` list in
order and return the first entry whose coordinates equal `(x, y)`
(the source raises `CollisionException` carrying it), or `none`. The
player is never scanned. -/
def detect_collision (ms : List Obj) (x y : Int) : Option Obj :=
  ms.find? (fun m => m.x == x && m.y == y)

/-- The four movement directions. -/
inductive Dir where
  | up
  | down
  | left
  | right
deriving DecidableEq

/-- The boundary guard of each movement method: `move_up` returns early
when `self.y == 0`, `move_down` when `self.y == HEIGHT - 1`, `move_left`
when `self.x == 0`, `move_right` when `self.x == WIDTH - 1`. -/
def dirGuard (d : Dir) (e : Obj) : Bool :=
  match d with
  | .up => e.y == 0
  | .down => e.y == (HEIGHT : Int) - 1
  | .left => e.x == 0
  | .right => e.x == (WIDTH : Int) - 1

/-- Destination cell of a move in direction `d` from the position of `e`. -/
def dirDest (d : Dir) (e : Obj) : Int × Int :=
  match d with
  | .up => (e.x, e.y - 1)
  | .down => (e.x, e.y + 1)
  | .left => (e.x - 1, e.y)
  | .right => (e.x + 1, e.y)

/-- Replace, in the live-entity list, the entry that is the object `e`
(same identity) by `e`'s new field values. Python mutates the object in
place, so the list entry and the mover are the same reference. -/
def updateById (ms : List Obj) (e : Obj) : List Obj :=
  ms.map (fun m => if m.id == e.id then e else m)

/-- Outcome of one movement method call. -/
inductive MoveRes where
  | moved (s : GState) (e : Obj)
  | noop
  | collision (hit : Obj)
  | crash
deriving DecidableEq

/-- Translation of `Object.move_up` / `move_down` / `move_left` /
`move_right` (the four methods share this structure, differing only in
the guard and destination): boundary check, then collision check
(raising), then blank the old cell, update the position, draw the new
cell. When the mover is in the live-entity list or is the player, the
state's copy of it is updated (Python mutates the shared object). -/
def moveDir (s : GState) (e : Obj) (d : Dir) : MoveRes :=
  if dirGuard d e then .noop
  else
    match detect_collision s.mobs (dirDest d e).1 (dirDest d e).2 with
    | some hit => .collision hit
    | none =>
      match gridRender s.grid e.x e.y ' ' with
      | none => .crash
      | some g1 =>
        let e2 : Obj := { e with x := (dirDest d e).1, y := (dirDest d e).2 }
        match gridRender g1 e2.x e2.y e.character with
        | none => .crash
        | some g2 =>
          .moved { s with grid := g2
                        , mobs := updateById s.mobs e2
                        , player := if s.player.id == e.id then e2 else s.player } e2

/-- Spawn parameters of `fire_up` / `fire_down` / `fire_left` /
`fire_right`: position offset, glyph, and velocity of the new bullet.
The source uses `dy = 1` for upward motion (decreasing `y`). -/
def fireParams (d : Dir) (e : Obj) : Int × Int × Char × Int × Int :=
  match d with
  | .up => (e.x, e.y - 1, '"', 0, 1)
  | .down => (e.x, e.y + 1, '"', 0, -1)
  | .left => (e.x - 1, e.y, '=', -1, 0)
  | .right => (e.x + 1, e.y, '=', 1, 0)

/-- Translation of the four fire methods: construct a `Bullet` at the
offset cell (its initializer renders its glyph, which can raise
`IndexError`, modelled as `none`) and append it to the `mobs` list.
There is no bounds or collision check. -/
def fireDir (s : GState) (e : Obj) (d : Dir) : Option GState :=
  match fireParams d e with
  | (bx, byy, c, ddx, ddy) =>
    match gridRender s.grid bx byy c with
    | none => none
    | some g =>
      some { s with grid := g
                  , mobs := s.mobs ++ [⟨s.nextId, bx, byy, c, Kind.bullet, ddx, ddy⟩]
                  , nextId := s.nextId + 1 }

/-- An action attempted by a mob during its decision procedure. -/
inductive Act where
  | moveUp
  | moveDown
  | moveLeft
  | moveRight
  | fireUp
  | fireDown
  | fireLeft
  | fireRight
deriving DecidableEq

/-- Outcome of `Mob.move`: normal return (`done`), a `CollisionException`
escaping to the caller (`collided`), or an `IndexError` (`crash`). The
`k` component is the random-draw cursor after the call; `acts` lists the
move/fire attempts performed (at most one, each `return` ends the
procedure). -/
inductive MobRes where
  | done (s : GState) (k : Nat) (acts : List Act)
  | collided (s : GState) (k : Nat) (acts : List Act)
  | crash
deriving DecidableEq

/-- A `return self.move_X()` inside `Mob.move`: the move either commits,
no-ops at the boundary, or raises `CollisionException` out of the
procedure (the raise happens before any mutation). -/
def retMove (s : GState) (m : Obj) (d : Dir) (a : Act) (k : Nat) : MobRes :=
  match moveDir s m d with
  | .moved s2 _ => .done s2 k [a]
  | .noop => .done s k [a]
  | .collision _ => .collided s k [a]
  | .crash => .crash

/-- A `return self.fire_X()` inside `Mob.move`. -/
def retFire (s : GState) (m : Obj) (d : Dir) (a : Act) (k : Nat) : MobRes :=
  match fireDir s m d with
  | some s2 => .done s2 k [a]
  | none => .crash

/-- Vertical half of the mob decision procedure: compare `player.y` with
the mob's `y` and with probability 0.4 move toward the player, else with
independent probability 0.4 fire toward the player. -/
def mobVertical (s : GState) (m : Obj) (rng : Nat → Nat) (k : Nat) : MobRes :=
  if s.player.y - m.y < 0 then
    if rng k < 40 then retMove s m .up .moveUp (k+1)
    else if rng (k+1) < 40 then retFire s m .up .fireUp (k+2)
    else .done s (k+2) []
  else if s.player.y - m.y > 0 then
    if rng k < 40 then retMove s m .down .moveDown (k+1)
    else if rng (k+1) < 40 then retFire s m .down .fireDown (k+2)
    else .done s (k+2) []
  else .done s k []

/-- Horizontal half of the mob decision procedure; when it takes no
action (offset zero, or both draws fail) control falls through to the
vertical half. -/
def mobHorizontal (s : GState) (m : Obj) (rng : Nat → Nat) (k : Nat) : MobRes :=
  if s.player.x - m.x < 0 then
    if rng k < 40 then retMove s m .left .moveLeft (k+1)
    else if rng (k+1) < 40 then retFire s m .left .fireLeft (k+2)
    else mobVertical s m rng (k+2)
  else if s.player.x - m.x > 0 then
    if rng k < 40 then retMove s m .right .moveRight (k+1)
    else if rng (k+1) < 40 then retFire s m .right .fireRight (k+2)
    else mobVertical s m rng (k+2)
  else mobVertical s m rng k

/-- Translation of `Ob.move` for mobs (`Mob.move`): four jitter checks at
probability 0.1 each, tested in order left, right, up, down, the first
success performing that move and returning; otherwise the horizontal and
then the vertical axis logic. Draws are taken lazily, exactly as the
source short-circuits its `if`/`elif` chain. -/
def mob_move (s : GState) (m : Obj) (rng : Nat → Nat) (k : Nat) : MobRes :=
  if rng k < 10 then retMove s m .left .moveLeft (k+1)
  else if rng (k+1) < 10 then retMove s m .right .moveRight (k+2)
  else if rng (k+2) < 10 then retMove s m .up .moveUp (k+3)
  else if rng (k+3) < 10 then retMove s m .down .moveDown (k+4)
  else mobHorizontal s m rng (k+4)

/-- The actions attempted by a `Mob.move` outcome. -/
def mobActs : MobRes → List Act
  | .done _ _ acts => acts
  | .collided _ _ acts => acts
  | .crash => []

/-- State of the `try` block of `Bullet.move` while the four conditional
moves run: still going (`cont`), aborted by a `CollisionException`
carrying the struck object (`collided`), or `IndexError` (`crash`). -/
inductive TryRes where
  | cont (s : GState) (b : Obj)
  | collided (s : GState) (b : Obj) (hit : Obj)
  | crash
deriving DecidableEq

/-- One conditional move inside the `try` block of `Bullet.move`; skipped
when a previous step already raised. -/
def stepIf (p : Obj → Bool) (d : Dir) (r : TryRes) : TryRes :=
  match r with
  | .cont s b =>
    if p b then
      match moveDir s b d with
      | .moved s2 b2 => .cont s2 b2
      | .noop => .cont s b
      | .collision hit => .collided s b hit
      | .crash => .crash
    else .cont s b
  | r => r

/-- The `try` block of `Bullet.move`: `dy == 1` moves up, `dy == -1`
moves down, `dx == 1` moves right, `dx == -1` moves left, in that order,
the first raise aborting the rest. -/
def bulletTry (s : GState) (b : Obj) : TryRes :=
  stepIf (fun o => o.dx == -1) .left
    (stepIf (fun o => o.dx == 1) .right
      (stepIf (fun o => o.dy == -1) .down
        (stepIf (fun o => o.dy == 1) .up (.cont s b))))

/-- Outcome of a `Bullet.move` call: normal return, process termination
via `sys.exit(0)` after printing `"You died."`, or an uncaught error. -/
inductive StepRes where
  | ok (s : GState)
  | exited (s : GState)
  | crash
deriving DecidableEq

/-- Remove the first list entry that is the object with identity `i`
(Python's `mobs.remove(object)` guarded by `object in mobs`; absence
leaves the list unchanged). -/
def removeById (ms : List Obj) (i : Nat) : List Obj :=
  match ms with
  | [] => []
  | m :: rest => if m.id == i then rest else m :: removeById rest i

/-- Translation of `Bullet.move`: run the conditional moves; on a
`CollisionException`, blank the struck object's cell, then if the struck
object is the player print `"You died."` and exit the process, otherwise
print the kill message and remove the struck object from the list (the
bullet itself is not removed). -/
def bullet_move (s : GState) (b : Obj) : StepRes :=
  match bulletTry s b with
  | .cont s2 _ => .ok s2
  | .crash => .crash
  | .collided s2 _ hit =>
    match gridRender s2.grid hit.x hit.y ' ' with
    | none => .crash
    | some g1 =>
      if hit.id == s2.player.id then
        .exited { s2 with grid := g1, notes := s2.notes ++ [Note.youDied] }
      else
        .ok { s2 with grid := g1
                    , mobs := removeById s2.mobs hit.id
                    , notes := s2.notes ++ [Note.killed hit.id] }

/-- Outcome of the `handle_mobs` pass: the loop ran off the end of the
list (`norm`), the process exited on player death (`exited`), an uncaught
error escaped (`crash`), or the modelling fuel ran out (`fuelOut`, never
reached with sufficient fuel). Each result carries the log of the ids of
the entities whose per-tick action was invoked, in invocation order. -/
inductive PhaseRes where
  | norm (s : GState) (log : List Nat) (k : Nat)
  | exited (s : GState) (log : List Nat)
  | crash (log : List Nat)
  | fuelOut (log : List Nat)
deriving DecidableEq

/-- Translation of `handle_mobs` from position `i`: Python's `for mob in
mobs` fetches `mobs[i]` for `i = 0, 1, ...` from the (mutating) list
until the index falls off the end. A `Mob` runs its decision procedure
(a `CollisionException` escaping it is caught and ignored); a `Bullet`
runs its physics; a plain object would raise `NotImplementedError`. -/
def handleMobsFrom (fuel : Nat) (s : GState) (i : Nat) (rng : Nat → Nat)
    (k : Nat) (log : List Nat) : PhaseRes :=
  match fuel with
  | 0 => .fuelOut log
  | fuel2 + 1 =>
    match s.mobs[i]? with
    | none => .norm s log k
    | some e =>
      match e.kind with
      | Kind.mob =>
        match mob_move s e rng k with
        | .done s2 k2 _ => handleMobsFrom fuel2 s2 (i+1) rng k2 (log ++ [e.id])
        | .collided s2 k2 _ => handleMobsFrom fuel2 s2 (i+1) rng k2 (log ++ [e.id])
        | .crash => .crash (log ++ [e.id])
      | Kind.bullet =>
        match bullet_move s e with
        | .ok s2 => handleMobsFrom fuel2 s2 (i+1) rng k (log ++ [e.id])
        | .exited s2 => .exited s2 (log ++ [e.id])
        | .crash => .crash (log ++ [e.id])
      | Kind.plain => .crash (log ++ [e.id])

/-- Translation of `handle_mobs` (the whole pass, from index 0). -/
def handle_mobs (fuel : Nat) (s : GState) (rng : Nat → Nat) (k : Nat) : PhaseRes :=
  handleMobsFrom fuel s 0 rng k []

/-- The invocation log of a pass outcome. -/
def phaseLog : PhaseRes → List Nat
  | .norm _ log _ => log
  | .exited _ log => log
  | .crash log => log
  | .fuelOut log => log

/-- A caller that catches and discards `CollisionException` around one
move, as `handle_input` does for the player's move commands: the state
is unchanged unless the move committed. -/
def moveCaught (s : GState) (e : Obj) (d : Dir) : GState :=
  match moveDir s e d with
  | .moved s2 _ => s2
  | _ => s

/-- Two objects occupy the same grid cell. -/
def sameCell (a b : Obj) : Prop := a.x = b.x ∧ a.y = b.y

/-- The "at most one entity per cell" invariant over all entities,
player included. -/
def oneEntityPerCell (s : GState) : Prop :=
  (s.player :: s.mobs).Pairwise (fun a b => ¬ sameCell a b)

/-- Distinct cells among the live-entity set only. -/
def mobsDistinct (ms : List Obj) : Prop :=
  ms.Pairwise (fun a b => ¬ sameCell a b)

/-- An object's position lies in `[0, WIDTH) × [0, HEIGHT)`. -/
def inBounds (e : Obj) : Prop :=
  0 ≤ e.x ∧ e.x < (WIDTH : Int) ∧ 0 ≤ e.y ∧ e.y < (HEIGHT : Int)

/-- The ids of a list of objects, in list order. -/
def idsOf (ms : List Obj) : List Nat := ms.map (fun m => m.id)

/-- The blank starting map, `[[' ' for i in range(WIDTH)] for j in range(HEIGHT)]`. -/
def blankGrid : Grid := List.replicate HEIGHT (List.replicate WIDTH ' ')

/-- The moved object of a move outcome, when the move committed. -/
def movedObj : MoveRes → Option Obj
  | .moved _ e => some e
  | _ => none

/-- The constructor tag of a move outcome, used to state evaluations. -/
def moveKind : MoveRes → Nat
  | .moved _ _ => 0
  | .noop => 1
  | .collision _ => 2
  | .crash => 3

/-- A bullet has exactly one nonzero velocity component, as every bullet
created by the fire methods does. -/
def singleAxis (b : Obj) : Prop :=
  (b.dx = 0 ∧ (b.dy = 1 ∨ b.dy = -1)) ∨ (b.dy = 0 ∧ (b.dx = 1 ∨ b.dx = -1))

/-- Concrete scenario for C2: player at `(3, 3)`, one mob at `(5, 5)`. -/
def c2player : Obj := ⟨0, 3, 3, '*', Kind.plain, 0, 0⟩

/-- The mob of the C2 scenario. -/
def c2mob : Obj := ⟨1, 5, 5, '+', Kind.mob, 0, 0⟩

/-- The C2 scenario state. -/
def c2state : GState := ⟨blankGrid, c2player, [c2mob], 2, []⟩

/-- Random draws for the C2 scenario: the four jitter draws fail
(value 0.50), every later draw is 0 and so would pass any 0.4 check. -/
def c2draws : Nat → Nat := fun j => if j < 4 then 50 else 0

/-- Concrete scenario for C3: the player stands at `(5, 4)`, directly
above a mob at `(5, 5)`. -/
def c3player : Obj := ⟨0, 5, 4, '*', Kind.plain, 0, 0⟩

/-- The mob of the C3 scenario. -/
def c3mob : Obj := ⟨1, 5, 5, '+', Kind.mob, 0, 0⟩

/-- The C3 scenario state. -/
def c3state : GState := ⟨blankGrid, c3player, [c3mob], 2, []⟩

/-- Witness scenario for C3: two mobs vertically adjacent. -/
def w3blocker : Obj := ⟨1, 5, 4, '+', Kind.mob, 0, 0⟩

/-- The moving mob of the C3 witness scenario. -/
def w3mover : Obj := ⟨2, 5, 5, '+', Kind.mob, 0, 0⟩

/-- The C3 witness state. -/
def w3state : GState := ⟨blankGrid, ⟨0, 10, 10, '*', Kind.plain, 0, 0⟩, [w3blocker, w3mover], 3, []⟩

/-- Concrete scenario for C4: player at `(10, 10)`, a mob directly above
at `(10, 9)`; every entity is on its own cell. -/
def c4player : Obj := ⟨0, 10, 10, '*', Kind.plain, 0, 0⟩

/-- The mob of the C4 scenario. -/
def c4mob : Obj := ⟨1, 10, 9, '+', Kind.mob, 0, 0⟩

/-- The C4 scenario state. -/
def c4state : GState := ⟨blankGrid, c4player, [c4mob], 2, []⟩

/-- The C4 witness state: a mob at `(7, 5)` next to a free cell. -/
def w4mob : Obj := ⟨1, 7, 5, '+', Kind.mob, 0, 0⟩

/-- The C4 witness state. -/
def w4state : GState := ⟨blankGrid, ⟨0, 10, 10, '*', Kind.plain, 0, 0⟩, [w4mob], 2, []⟩

/-- Concrete scenario for C5: the player stands on the top row at
`(10, 0)`. -/
def c5player : Obj := ⟨0, 10, 0, '*', Kind.plain, 0, 0⟩

/-- The C5 scenario state. -/
def c5state : GState := ⟨blankGrid, c5player, [], 1, []⟩

/-- The C5 witness entity, an interior mob at `(10, 10)`. -/
def w5mob : Obj := ⟨1, 10, 10, '+', Kind.mob, 0, 0⟩

/-- The C5 witness state. -/
def w5state : GState := ⟨blankGrid, ⟨0, 3, 3, '*', Kind.plain, 0, 0⟩, [w5mob], 2, []⟩

/-- Concrete scenario for C6: the shooter stands on the rightmost
column, at `(79, 10)`. -/
def c6shooter : Obj := ⟨0, 79, 10, '*', Kind.plain, 0, 0⟩

/-- The C6 scenario state. -/
def c6state : GState := ⟨blankGrid, c6shooter, [], 1, []⟩

/-- The C6 witness shooter, at the interior cell `(10, 10)`. -/
def w6shooter : Obj := ⟨0, 10, 10, '*', Kind.plain, 0, 0⟩

/-- The C6 witness state. -/
def w6state : GState := ⟨blankGrid, w6shooter, [], 1, []⟩

/-- Witness scenario for C7: a bullet at `(5, 6)` moving up into a mob
at `(5, 5)`. -/
def w7mob : Obj := ⟨1, 5, 5, '+', Kind.mob, 0, 0⟩

/-- The bullet of the C7 witness scenario. -/
def w7bullet : Obj := ⟨2, 5, 6, '"', Kind.bullet, 0, 1⟩

/-- The C7 witness state. -/
def w7state : GState := ⟨blankGrid, ⟨0, 10, 10, '*', Kind.plain, 0, 0⟩, [w7mob, w7bullet], 3, []⟩

/-- Witness scenario for C8: the player at `(10, 10)`, drawn on the
grid, with nothing above. -/
def w8player : Obj := ⟨0, 10, 10, '*', Kind.plain, 0, 0⟩

/-- The C8 witness state. -/
def w8state : GState :=
  ⟨(blankGrid.set 10 ((List.replicate WIDTH ' ').set 10 '*')), w8player, [], 1, []⟩

/-- Witness scenario for C1: the player object also appears in the
live-entity list (as `mobs.append(player)` would leave it), and a bullet
below it moves up into its cell. -/
def w1player : Obj := ⟨0, 10, 10, '*', Kind.plain, 0, 0⟩

/-- The bullet of the C1 witness scenario. -/
def w1bullet : Obj := ⟨1, 10, 11, '"', Kind.bullet, 0, 1⟩

/-- The C1 witness state. -/
def w1state : GState := ⟨blankGrid, w1player, [w1player, w1bullet], 2, []⟩

/-- Concrete scenario for C9: a mob `M1` at `(5, 5)`, a bullet right
below it moving up, and a second mob `M2` far away; player at
`(10, 10)`. -/
def c9m1 : Obj := ⟨1, 5, 5, '+', Kind.mob, 0, 0⟩

/-- The bullet of the C9 scenario. -/
def c9bullet : Obj := ⟨2, 5, 6, '"', Kind.bullet, 0, 1⟩

/-- The second mob of the C9 scenario. -/
def c9m2 : Obj := ⟨3, 30, 15, '+', Kind.mob, 0, 0⟩

/-- The C9 scenario state. -/
def c9state : GState := ⟨blankGrid, ⟨0, 10, 10, '*', Kind.plain, 0, 0⟩, [c9m1, c9bullet, c9m2], 4, []⟩

/-- Random draws for the C9 scenario: every draw is 0.50, so no jitter
move and no axis action ever fires. -/
def c9draws : Nat → Nat := fun _ => 50

/-- The C9 witness state: a single mob, far from the player. -/
def w9mob : Obj := ⟨1, 30, 15, '+', Kind.mob, 0, 0⟩

/-- The C9 witness state. -/
def w9state : GState := ⟨blankGrid, ⟨0, 10, 10, '*', Kind.plain, 0, 0⟩, [w9mob], 2, []⟩

/-- The C10 witness shooter, standing on the top row at `(10, 0)`. -/
def w10shooter : Obj := ⟨0, 10, 0, '*', Kind.plain, 0, 0⟩

/-- The C10 witness state. -/
def w10state : GState := ⟨blankGrid, w10shooter, [], 1, []⟩

instance (e : Obj) : Decidable (inBounds e) := by
  unfold inBounds
  infer_instance

instance (a b : Obj) : Decidable (sameCell a b) := by
  unfold sameCell
  infer_instance

instance (s : GState) : Decidable (oneEntityPerCell s) := by
  unfold oneEntityPerCell
  infer_instance

instance (ms : List Obj) : Decidable (mobsDistinct ms) := by
  unfold mobsDistinct
  infer_instance

instance (g : Grid) : Decidable (gridWF g) := by
  unfold gridWF
  infer_instance

instance (b : Obj) : Decidable (singleAxis b) := by
  unfold singleAxis
  infer_instance

/-- Relation between the live-entity lists before and after one
processed entity of the `handle_mobs` pass: the id sequence either loses
elements (a kill) or stays put — with the fresh-id counter unchanged —
or gains exactly the fresh id at the end (a fire). -/
def idStep (s s2 : GState) : Prop :=
  (List.Sublist (idsOf s2.mobs) (idsOf s.mobs) ∧ s2.nextId = s.nextId) ∨
  (idsOf s2.mobs = idsOf s.mobs ++ [s.nextId] ∧ s2.nextId = s.nextId + 1)

/-- Invariant of the `handle_mobs` cursor loop: ids are pairwise
distinct and below the fresh-id counter, the log never repeats, and no
entity at or beyond the cursor has been logged. -/
def phaseInv (s : GState) (i : Nat) (log : List Nat) : Prop :=
  (idsOf s.mobs).Nodup ∧
  (∀ a ∈ idsOf s.mobs, a < s.nextId) ∧
  (∀ a ∈ log, a < s.nextId) ∧
  (∀ a ∈ (idsOf s.mobs).drop i, a ∉ log) ∧
  log.Nodup

/-- Outcome predicate for `Mob.move`: every continuing outcome's state
is an `idStep` away from the input state. -/
def mobResOk (s : GState) : MobRes → Prop
  | MobRes.done s2 _ _ => idStep s s2
  | MobRes.collided s2 _ _ => idStep s s2
  | MobRes.crash => True

/-- Outcome predicate for the `try` block of `Bullet.move`: moves only
update objects in place, so the id sequence and the fresh-id counter are
untouched. -/
def tryResOk (s : GState) : TryRes → Prop
  | TryRes.cont s2 _ => idsOf s2.mobs = idsOf s.mobs ∧ s2.nextId = s.nextId
  | TryRes.collided s2 _ _ => idsOf s2.mobs = idsOf s.mobs ∧ s2.nextId = s.nextId
  | TryRes.crash => True

-- ===================================================================
-- Theorems
-- ===================================================================

/-- Resolution of an in-range nonnegative Python index. -/
theorem pyIdx_of_nonneg_lt {len : Nat} {i : Int} (h0 : 0 ≤ i) (h1 : i < (len : Int)) :
    pyIdx len i = some i.toNat := by
  unfold pyIdx
  rw [if_pos ⟨h0, h1⟩]

/-- Resolution of an in-range negative Python index: it wraps. -/
theorem pyIdx_of_neg_le {len : Nat} {i : Int} (h0 : -(len : Int) ≤ i) (h1 : i < 0) :
    pyIdx len i = some (i + (len : Int)).toNat := by
  unfold pyIdx
  rw [if_neg (by omega : ¬(0 ≤ i ∧ i < (len : Int))), if_pos ⟨h0, h1⟩]

/-- A Python index at or beyond the length raises `IndexError`. -/
theorem pyIdx_none_of_ge {len : Nat} {i : Int} (h : (len : Int) ≤ i) :
    pyIdx len i = none := by
  unfold pyIdx
  rw [if_neg (by omega : ¬(0 ≤ i ∧ i < (len : Int))),
      if_neg (by omega : ¬(-(len : Int) ≤ i ∧ i < 0))]

/-- A successful in-bounds render: the target cell now holds the glyph,
every other cell is untouched, and well-formedness is preserved. -/
theorem gridRender_ok (g : Grid) (x y : Int) (c : Char) (wf : gridWF g)
    (hx0 : 0 ≤ x) (hx1 : x < (WIDTH : Int)) (hy0 : 0 ≤ y) (hy1 : y < (HEIGHT : Int)) :
    ∃ g2, gridRender g x y c = some g2 ∧ gridWF g2 ∧
      cellAt g2 x.toNat y.toNat = some c ∧
      ∀ a b : Nat, ¬(a = x.toNat ∧ b = y.toNat) → cellAt g2 a b = cellAt g a b := by
  obtain ⟨hlen, hrows⟩ := wf
  have hyg : y < (g.length : Int) := by omega
  have hyN : y.toNat < g.length := by omega
  have hrow : g[y.toNat]? = some g[y.toNat] := List.getElem?_eq_getElem hyN
  have hmem : g[y.toNat] ∈ g := List.getElem_mem hyN
  have hrlen : (g[y.toNat]).length = WIDTH := hrows _ hmem
  have hxr : x < ((g[y.toNat]).length : Int) := by omega
  have hxN : x.toNat < (g[y.toNat]).length := by omega
  refine ⟨g.set y.toNat ((g[y.toNat]).set x.toNat c), ?_, ?_, ?_, ?_⟩
  · unfold gridRender
    simp only [pyIdx_of_nonneg_lt hy0 hyg, hrow, pyIdx_of_nonneg_lt hx0 hxr]
  · refine ⟨by simpa using hlen, ?_⟩
    intro row2 hmem2
    rcases List.mem_or_eq_of_mem_set hmem2 with h | h
    · exact hrows _ h
    · rw [h, List.length_set]
      exact hrlen
  · unfold cellAt
    rw [List.getElem?_set_self hyN]
    simp [List.getElem?_set_self hxN]
  · intro a b hne
    unfold cellAt
    by_cases hb : b = y.toNat
    · subst hb
      have ha : a ≠ x.toNat := fun h => hne ⟨h, rfl⟩
      rw [List.getElem?_set_self hyN, hrow]
      simp [List.getElem?_set_ne (fun h => ha h.symm)]
    · rw [List.getElem?_set_ne (fun h => hb h.symm)]

/-- Rendering at a column at or beyond `WIDTH` raises `IndexError`. -/
theorem gridRender_none_of_right (g : Grid) (x y : Int) (c : Char) (wf : gridWF g)
    (hx : (WIDTH : Int) ≤ x) : gridRender g x y c = none := by
  unfold gridRender
  cases hy : pyIdx g.length y with
  | none => rfl
  | some r =>
    cases hr : g[r]? with
    | none => simp only [hr]
    | some row =>
      have hmem : row ∈ g := by
        obtain ⟨hlt, he⟩ := List.getElem?_eq_some.mp hr
        exact he ▸ List.getElem_mem hlt
      have hrlen : row.length = WIDTH := wf.2 _ hmem
      simp only [hr, pyIdx_none_of_ge (by omega : (row.length : Int) ≤ x)]

/-- Rendering at a row at or beyond `HEIGHT` raises `IndexError`. -/
theorem gridRender_none_of_bottom (g : Grid) (x y : Int) (c : Char) (wf : gridWF g)
    (hy : (HEIGHT : Int) ≤ y) : gridRender g x y c = none := by
  obtain ⟨hlen, hrows⟩ := wf
  unfold gridRender
  rw [pyIdx_none_of_ge (by omega : (g.length : Int) ≤ y)]

/-- A negative in-range column index wraps to the opposite edge. -/
theorem gridRender_wrap_x (g : Grid) (x y : Int) (c : Char) (wf : gridWF g)
    (h0 : -(WIDTH : Int) ≤ x) (h1 : x < 0) :
    gridRender g x y c = gridRender g (x + (WIDTH : Int)) y c := by
  unfold gridRender
  cases hy : pyIdx g.length y with
  | none => rfl
  | some r =>
    cases hr : g[r]? with
    | none => simp only [hr]
    | some row =>
      have hmem : row ∈ g := by
        obtain ⟨hlt, he⟩ := List.getElem?_eq_some.mp hr
        exact he ▸ List.getElem_mem hlt
      have hrlen : row.length = WIDTH := wf.2 _ hmem
      have hres : (x + (row.length : Int)).toNat = (x + (WIDTH : Int)).toNat := by omega
      simp only [hr, pyIdx_of_neg_le (by omega : -(row.length : Int) ≤ x) h1,
        pyIdx_of_nonneg_lt (by omega : (0:Int) ≤ x + (WIDTH : Int))
          (by omega : x + (WIDTH : Int) < (row.length : Int)), hres]

/-- A negative in-range row index wraps to the opposite edge. -/
theorem gridRender_wrap_y (g : Grid) (x y : Int) (c : Char) (wf : gridWF g)
    (h0 : -(HEIGHT : Int) ≤ y) (h1 : y < 0) :
    gridRender g x y c = gridRender g x (y + (HEIGHT : Int)) c := by
  obtain ⟨hlen, hrows⟩ := wf
  have hres : (y + (g.length : Int)).toNat = (y + (HEIGHT : Int)).toNat := by omega
  unfold gridRender
  simp only [pyIdx_of_neg_le (by omega : -(g.length : Int) ≤ y) h1,
    pyIdx_of_nonneg_lt (by omega : (0:Int) ≤ y + (HEIGHT : Int))
      (by omega : y + (HEIGHT : Int) < (g.length : Int)), hres]

/-- Rendering succeeds at any Python-resolvable coordinate pair. -/
theorem gridRender_isSome (g : Grid) (x y : Int) (c : Char) (wf : gridWF g)
    (hx0 : -(WIDTH : Int) ≤ x) (hx1 : x < (WIDTH : Int))
    (hy0 : -(HEIGHT : Int) ≤ y) (hy1 : y < (HEIGHT : Int)) :
    ∃ g2, gridRender g x y c = some g2 := by
  rcases lt_or_le x 0 with hx | hx
  · rw [gridRender_wrap_x g x y c wf hx0 hx]
    rcases lt_or_le y 0 with hy | hy
    · rw [gridRender_wrap_y g (x + (WIDTH : Int)) y c wf hy0 hy]
      obtain ⟨g2, h, -⟩ := gridRender_ok g (x + (WIDTH : Int)) (y + (HEIGHT : Int)) c wf
        (by omega) (by omega) (by omega) (by omega)
      exact ⟨g2, h⟩
    · obtain ⟨g2, h, -⟩ := gridRender_ok g (x + (WIDTH : Int)) y c wf
        (by omega) (by omega) hy hy1
      exact ⟨g2, h⟩
  · rcases lt_or_le y 0 with hy | hy
    · rw [gridRender_wrap_y g x y c wf hy0 hy]
      obtain ⟨g2, h, -⟩ := gridRender_ok g x (y + (HEIGHT : Int)) c wf
        hx hx1 (by omega) (by omega)
      exact ⟨g2, h⟩
    · obtain ⟨g2, h, -⟩ := gridRender_ok g x y c wf hx hx1 hy hy1
      exact ⟨g2, h⟩

/-- Characterization of `IndexError` from a render, on coordinates that
are at least `-WIDTH` respectively `-HEIGHT` (all coordinates that occur
in the game are): exactly the too-large ones fail. -/
theorem gridRender_none_iff (g : Grid) (x y : Int) (c : Char) (wf : gridWF g)
    (hx : -(WIDTH : Int) ≤ x) (hy : -(HEIGHT : Int) ≤ y) :
    gridRender g x y c = none ↔ ((WIDTH : Int) ≤ x ∨ (HEIGHT : Int) ≤ y) := by
  constructor
  · intro h
    by_contra hc
    push_neg at hc
    obtain ⟨g2, h2⟩ := gridRender_isSome g x y c wf hx hc.1 hy hc.2
    rw [h] at h2
    cases h2
  · intro h
    rcases h with h | h
    · exact gridRender_none_of_right g x y c wf h
    · exact gridRender_none_of_bottom g x y c wf h

/-- Inversion of a committed move: the boundary guard was off, the
destination was free of live entities, the mover now sits at the
destination, and the state records the two renders and the updated
object. -/
theorem moveDir_moved_inv (s : GState) (e : Obj) (d : Dir) (s2 : GState) (e2 : Obj)
    (hm : moveDir s e d = MoveRes.moved s2 e2) :
    dirGuard d e = false ∧
    detect_collision s.mobs (dirDest d e).1 (dirDest d e).2 = none ∧
    e2 = { e with x := (dirDest d e).1, y := (dirDest d e).2 } ∧
    ∃ g1, gridRender s.grid e.x e.y ' ' = some g1 ∧
      ∃ g2, gridRender g1 e2.x e2.y e.character = some g2 ∧
        s2 = { s with grid := g2
                    , mobs := updateById s.mobs e2
                    , player := if s.player.id == e.id then e2 else s.player } := by
  unfold moveDir at hm
  by_cases hg : dirGuard d e
  · rw [if_pos hg] at hm
    cases hm
  · rw [if_neg hg] at hm
    refine ⟨by simpa using hg, ?_⟩
    cases hdc : detect_collision s.mobs (dirDest d e).1 (dirDest d e).2 with
    | some hit => rw [hdc] at hm; cases hm
    | none =>
      rw [hdc] at hm
      refine ⟨rfl, ?_⟩
      cases hg1 : gridRender s.grid e.x e.y ' ' with
      | none => rw [hg1] at hm; cases hm
      | some g1 =>
        rw [hg1] at hm
        cases hg2 : gridRender g1 (dirDest d e).1 (dirDest d e).2 e.character with
        | none => simp only [hg2] at hm; cases hm
        | some g2 =>
          simp only [hg2] at hm
          cases hm
          exact ⟨rfl, g1, rfl, g2, hg2, rfl⟩

/-- A committed move from an in-bounds position lands in bounds: the
boundary guard rules out the only offending destination. -/
theorem moveDir_moved_inBounds (s : GState) (e : Obj) (d : Dir) (s2 : GState) (e2 : Obj)
    (hin : inBounds e) (hm : moveDir s e d = MoveRes.moved s2 e2) : inBounds e2 := by
  obtain ⟨hg, hdc, he2, -⟩ := moveDir_moved_inv s e d s2 e2 hm
  obtain ⟨hx0, hx1, hy0, hy1⟩ := hin
  subst he2
  cases d <;>
    simp only [dirGuard, beq_eq_false_iff_ne, ne_eq] at hg <;>
    simp only [inBounds, dirDest] <;>
    refine ⟨by omega, by omega, by omega, by omega⟩

/-- C5, refuted as stated: an entity with an in-bounds position (the
player on the top row at `(10, 0)`) fires upward; the fire succeeds and
puts a bullet with the out-of-bounds position `(10, -1)` into the
live-entity set, so positions do not stay within
`[0, WIDTH) × [0, HEIGHT)` at all times. -/
theorem c5_counterexample :
    inBounds c5player ∧
    ∃ s2, fireDir c5state c5player Dir.up = some s2 ∧ ∃ b ∈ s2.mobs, ¬ inBounds b := by
  refine ⟨by decide, (fireDir c5state c5player Dir.up).get (by decide),
    (Option.some_get _).symm, ?_⟩
  decide

/-- C5 (amended): every directional move of an entity whose position is
in `[0, WIDTH) × [0, HEIGHT)` keeps the position in bounds, and a move
attempt whose boundary guard fires is a silent no-op; but fire actions
can create bullets at out-of-bounds positions (see the C5
counterexample), so the bound does not hold for all entities at all
times. -/
theorem c5_move_bounds (s : GState) (e : Obj) (d : Dir) (hin : inBounds e) :
    (dirGuard d e = true → moveDir s e d = MoveRes.noop) ∧
    ∀ s2 e2, moveDir s e d = MoveRes.moved s2 e2 → inBounds e2 := by
  constructor
  · intro hg
    unfold moveDir
    rw [if_pos hg]
  · intro s2 e2 hm
    exact moveDir_moved_inBounds s e d s2 e2 hin hm

/-- Witness for C5: the amended statement applied to a mob at the
interior cell `(10, 10)` attempting to move up. -/
theorem c5_witness :
    inBounds w5mob ∧
    ((dirGuard Dir.up w5mob = true → moveDir w5state w5mob Dir.up = MoveRes.noop) ∧
     ∀ s2 e2, moveDir w5state w5mob Dir.up = MoveRes.moved s2 e2 → inBounds e2) :=
  ⟨by decide, c5_move_bounds w5state w5mob Dir.up (by decide)⟩

/-- Unfolding of a fire action in terms of its spawn parameters. -/
theorem fireDir_eq (s : GState) (e : Obj) (d : Dir) :
    fireDir s e d =
      (gridRender s.grid (fireParams d e).1 (fireParams d e).2.1 (fireParams d e).2.2.1).map
        (fun g => { s with grid := g
                         , mobs := s.mobs ++ [⟨s.nextId, (fireParams d e).1,
                             (fireParams d e).2.1, (fireParams d e).2.2.1, Kind.bullet,
                             (fireParams d e).2.2.2.1, (fireParams d e).2.2.2.2⟩]
                         , nextId := s.nextId + 1 }) := by
  cases d <;> simp only [fireDir, fireParams] <;>
    (cases hg : gridRender s.grid _ _ _ <;> simp [hg])

/-- C6, refuted as stated: the shooter stands at the in-bounds position
`(79, 10)` on the rightmost column and fires right; constructing the new
bullet renders at column `80`, which raises `IndexError`, so the fire
primitive does not succeed and no bullet is appended. -/
theorem c6_counterexample :
    inBounds c6shooter ∧ fireDir c6state c6shooter Dir.right = none := by
  decide

/-- C6 (amended): for an in-bounds shooter, firing succeeds exactly when
the spawn cell's render does not raise, that is, unless the spawn
coordinate reaches `WIDTH` (firing right from the rightmost column) or
`HEIGHT` (firing down from the bottom row); on success the new bullet —
with the offset position and the matching velocity vector from the
source, unchecked for bounds or collisions — is appended to the
live-entity set. -/
theorem c6_fire_behaviour (s : GState) (e : Obj) (d : Dir) (wf : gridWF s.grid)
    (hin : inBounds e) :
    (fireDir s e d = none ↔
      ((WIDTH : Int) ≤ (fireParams d e).1 ∨ (HEIGHT : Int) ≤ (fireParams d e).2.1)) ∧
    ∀ s2, fireDir s e d = some s2 →
      s2.mobs = s.mobs ++ [⟨s.nextId, (fireParams d e).1, (fireParams d e).2.1,
        (fireParams d e).2.2.1, Kind.bullet, (fireParams d e).2.2.2.1,
        (fireParams d e).2.2.2.2⟩] ∧
      s2.nextId = s.nextId + 1 ∧ s2.player = s.player := by
  obtain ⟨hx0, hx1, hy0, hy1⟩ := hin
  have hsx : -(WIDTH : Int) ≤ (fireParams d e).1 ∧ (fireParams d e).1 ≤ e.x + 1 := by
    cases d <;> simp [fireParams] <;> omega
  have hsy : -(HEIGHT : Int) ≤ (fireParams d e).2.1 ∧ (fireParams d e).2.1 ≤ e.y + 1 := by
    cases d <;> simp [fireParams] <;> omega
  constructor
  · rw [fireDir_eq]
    rw [Option.map_eq_none']
    exact gridRender_none_iff s.grid _ _ _ wf hsx.1 hsy.1
  · intro s2 h2
    rw [fireDir_eq] at h2
    cases hg : gridRender s.grid (fireParams d e).1 (fireParams d e).2.1 (fireParams d e).2.2.1 with
    | none => rw [hg] at h2; cases h2
    | some g2 =>
      rw [hg] at h2
      cases h2
      exact ⟨rfl, rfl, rfl⟩

/-- Witness for C6: the amended statement applied to a shooter at the
interior cell `(10, 10)` firing right. -/
theorem c6_witness :
    (gridWF w6state.grid ∧ inBounds w6shooter) ∧
    ((fireDir w6state w6shooter Dir.right = none ↔
      ((WIDTH : Int) ≤ (fireParams Dir.right w6shooter).1 ∨
       (HEIGHT : Int) ≤ (fireParams Dir.right w6shooter).2.1)) ∧
     ∀ s2, fireDir w6state w6shooter Dir.right = some s2 →
      s2.mobs = w6state.mobs ++ [⟨w6state.nextId, (fireParams Dir.right w6shooter).1,
        (fireParams Dir.right w6shooter).2.1, (fireParams Dir.right w6shooter).2.2.1,
        Kind.bullet, (fireParams Dir.right w6shooter).2.2.2.1,
        (fireParams Dir.right w6shooter).2.2.2.2⟩] ∧
      s2.nextId = w6state.nextId + 1 ∧ s2.player = w6state.player) :=
  ⟨⟨by decide, by decide⟩, c6_fire_behaviour w6state w6shooter Dir.right (by decide) (by decide)⟩

/-- C10: `Grid.render` called with a negative coordinate in range wraps
to the opposite edge of the grid (indices taken modulo `WIDTH`/`HEIGHT`),
and called with `x ≥ WIDTH` or `y ≥ HEIGHT` it raises an index error;
consequently a fire outward from the bottom row or the rightmost column
fails with an index error, while a fire outward from the top row or the
leftmost column succeeds and draws the new bullet's glyph on the
opposite edge of the grid. -/
theorem c10_render_wrap_and_fail :
    (∀ (g : Grid) (x y : Int) (c : Char), gridWF g → -(WIDTH : Int) ≤ x → x < 0 →
      gridRender g x y c = gridRender g (x + (WIDTH : Int)) y c) ∧
    (∀ (g : Grid) (x y : Int) (c : Char), gridWF g → -(HEIGHT : Int) ≤ y → y < 0 →
      gridRender g x y c = gridRender g x (y + (HEIGHT : Int)) c) ∧
    (∀ (g : Grid) (x y : Int) (c : Char), gridWF g → (WIDTH : Int) ≤ x →
      gridRender g x y c = none) ∧
    (∀ (g : Grid) (x y : Int) (c : Char), gridWF g → (HEIGHT : Int) ≤ y →
      gridRender g x y c = none) ∧
    (∀ (s : GState) (e : Obj), gridWF s.grid → inBounds e → e.y = (HEIGHT : Int) - 1 →
      fireDir s e Dir.down = none) ∧
    (∀ (s : GState) (e : Obj), gridWF s.grid → inBounds e → e.x = (WIDTH : Int) - 1 →
      fireDir s e Dir.right = none) ∧
    (∀ (s : GState) (e : Obj), gridWF s.grid → inBounds e → e.y = 0 →
      ∃ s2, fireDir s e Dir.up = some s2 ∧
        cellAt s2.grid e.x.toNat (HEIGHT - 1) = some '"' ∧
        ∃ b2 ∈ s2.mobs, b2.x = e.x ∧ b2.y = -1) ∧
    (∀ (s : GState) (e : Obj), gridWF s.grid → inBounds e → e.x = 0 →
      ∃ s2, fireDir s e Dir.left = some s2 ∧
        cellAt s2.grid (WIDTH - 1) e.y.toNat = some '=' ∧
        ∃ b2 ∈ s2.mobs, b2.x = -1 ∧ b2.y = e.y) := by
  refine ⟨gridRender_wrap_x, gridRender_wrap_y, gridRender_none_of_right,
    gridRender_none_of_bottom, ?_, ?_, ?_, ?_⟩
  · intro s e wf hin hy
    rw [fireDir_eq]
    simp only [fireParams]
    rw [gridRender_none_of_bottom s.grid e.x (e.y + 1) '"' wf (by omega)]
    rfl
  · intro s e wf hin hx
    rw [fireDir_eq]
    simp only [fireParams]
    rw [gridRender_none_of_right s.grid (e.x + 1) e.y '=' wf (by omega)]
    rfl
  · intro s e wf hin hy
    obtain ⟨hx0, hx1, hy0, hy1⟩ := hin
    have hw : gridRender s.grid e.x (e.y - 1) '"' =
        gridRender s.grid e.x ((e.y - 1) + (HEIGHT : Int)) '"' :=
      gridRender_wrap_y _ _ _ _ wf (by omega) (by omega)
    obtain ⟨g2, hg2, wf2, hcell, -⟩ :=
      gridRender_ok s.grid e.x ((e.y - 1) + (HEIGHT : Int)) '"' wf hx0 hx1 (by omega) (by omega)
    rw [fireDir_eq]
    simp only [fireParams]
    rw [hw, hg2]
    refine ⟨_, rfl, ?_, ?_⟩
    · have hton : ((e.y - 1) + (HEIGHT : Int)).toNat = HEIGHT - 1 := by omega
      rw [hton] at hcell
      exact hcell
    · refine ⟨_, List.mem_append_right _ (List.mem_singleton.mpr rfl), rfl, ?_⟩
      show e.y - 1 = -1
      omega
  · intro s e wf hin hx
    obtain ⟨hx0, hx1, hy0, hy1⟩ := hin
    have hw : gridRender s.grid (e.x - 1) e.y '=' =
        gridRender s.grid ((e.x - 1) + (WIDTH : Int)) e.y '=' :=
      gridRender_wrap_x _ _ _ _ wf (by omega) (by omega)
    obtain ⟨g2, hg2, wf2, hcell, -⟩ :=
      gridRender_ok s.grid ((e.x - 1) + (WIDTH : Int)) e.y '=' wf (by omega) (by omega) hy0 hy1
    rw [fireDir_eq]
    simp only [fireParams]
    rw [hw, hg2]
    refine ⟨_, rfl, ?_, ?_⟩
    · have hton : ((e.x - 1) + (WIDTH : Int)).toNat = WIDTH - 1 := by omega
      rw [hton] at hcell
      exact hcell
    · refine ⟨_, List.mem_append_right _ (List.mem_singleton.mpr rfl), ?_, rfl⟩
      show e.x - 1 = -1
      omega

/-- C8: after any committed directional move of an in-bounds entity, the
mover sits at the destination cell, the previous cell holds the blank
glyph, and the new cell holds exactly the mover's glyph. -/
theorem c8_move_writes (s : GState) (e : Obj) (d : Dir) (s2 : GState) (e2 : Obj)
    (wf : gridWF s.grid) (hin : inBounds e)
    (hm : moveDir s e d = MoveRes.moved s2 e2) :
    e2.x = (dirDest d e).1 ∧ e2.y = (dirDest d e).2 ∧ inBounds e2 ∧
    cellAt s2.grid e.x.toNat e.y.toNat = some ' ' ∧
    cellAt s2.grid e2.x.toNat e2.y.toNat = some e.character := by
  have hin2 : inBounds e2 := moveDir_moved_inBounds s e d s2 e2 hin hm
  obtain ⟨hg, hdc, he2, g1, hg1, g2, hg2, hs2⟩ := moveDir_moved_inv s e d s2 e2 hm
  obtain ⟨hx0, hx1, hy0, hy1⟩ := hin
  obtain ⟨hx0', hx1', hy0', hy1'⟩ := id hin2
  obtain ⟨g1', hg1', wf1, hc1, ho1⟩ := gridRender_ok s.grid e.x e.y ' ' wf hx0 hx1 hy0 hy1
  have hgg : g1 = g1' := Option.some.inj (hg1.symm.trans hg1')
  subst hgg
  obtain ⟨g2', hg2', wf2, hc2, ho2⟩ :=
    gridRender_ok g1 e2.x e2.y e.character wf1 hx0' hx1' hy0' hy1'
  have hgg2 : g2 = g2' := Option.some.inj (hg2.symm.trans hg2')
  subst hgg2
  have hne : ¬(e.x.toNat = e2.x.toNat ∧ e.y.toNat = e2.y.toNat) := by
    subst he2
    cases d <;>
      simp only [dirGuard, beq_eq_false_iff_ne, ne_eq] at hg <;>
      simp only [dirDest] <;>
      omega
  have hgrid : s2.grid = g2 := by rw [hs2]
  refine ⟨by rw [he2], by rw [he2], hin2, ?_, ?_⟩
  · rw [hgrid, ho2 e.x.toNat e.y.toNat hne]
    exact hc1
  · rw [hgrid]
    exact hc2

/-- Witness for C8: the player at `(10, 10)`, drawn on an otherwise
blank grid, moves up with no obstruction; it ends at `(10, 9)`, cell
`(10, 10)` is blank, and cell `(10, 9)` holds the player glyph. -/
theorem c8_witness :
    ∃ s2 e2, moveDir w8state w8player Dir.up = MoveRes.moved s2 e2 ∧
      e2.x = 10 ∧ e2.y = 9 ∧
      cellAt s2.grid 10 10 = some ' ' ∧ cellAt s2.grid 10 9 = some '*' := by
  have hk : moveKind (moveDir w8state w8player Dir.up) = 0 := by decide
  cases hm : moveDir w8state w8player Dir.up with
  | moved s2 e2 =>
    obtain ⟨h1, h2, h3, h4, h5⟩ :=
      c8_move_writes w8state w8player Dir.up s2 e2 (by decide) (by decide) hm
    have hx : e2.x = (10 : Int) := h1.trans (by decide)
    have hy : e2.y = (9 : Int) := h2.trans (by decide)
    rw [hx, hy] at h5
    exact ⟨s2, e2, rfl, hx, hy, h4, h5⟩
  | noop => rw [hm] at hk; simp [moveKind] at hk
  | collision hit => rw [hm] at hk; simp [moveKind] at hk
  | crash => rw [hm] at hk; simp [moveKind] at hk

/-- C3, refuted as stated: the player occupies cell `(5, 4)` and a mob
at `(5, 5)` attempts to move up into it, yet the attempt does not fail —
the move commits and the mob ends up on the player's cell, because
`detect_collision` scans only the live-entity set and never the player. -/
theorem c3_counterexample :
    c3state.player.x = 5 ∧ c3state.player.y = 4 ∧
    (movedObj (moveDir c3state c3mob Dir.up)).map (fun o => (o.x, o.y)) = some (5, 4) := by
  decide

/-- Helper: in a list of objects with pairwise distinct ids, two members
with the same id are the same object. -/
theorem eq_of_mem_of_id_eq {ms : List Obj} (h : (idsOf ms).Nodup) {a b : Obj}
    (ha : a ∈ ms) (hb : b ∈ ms) (hid : a.id = b.id) : a = b := by
  induction ms with
  | nil => cases ha
  | cons c t ih =>
    have hh : c.id ∉ idsOf t ∧ (idsOf t).Nodup := by
      simpa [idsOf, List.nodup_cons] using h
    rcases List.mem_cons.mp ha with ha1 | ha1 <;> rcases List.mem_cons.mp hb with hb1 | hb1
    · rw [ha1, hb1]
    · subst ha1
      exact absurd (hid ▸ List.mem_map_of_mem (fun m => m.id) hb1) hh.1
    · subst hb1
      exact absurd (hid ▸ List.mem_map_of_mem (fun m => m.id) ha1) hh.1
    · exact ih hh.2 ha1 hb1

/-- C3 (amended): when the destination cell of a move attempt is
occupied by a member of the live-entity set (mobs and bullets — cells
occupied only by the player do not block, see the C3 counterexample),
the attempt fails with a collision carrying the first such member in
iteration order, that member indeed sits on the destination cell, and a
caller that catches the exception observes a completely unchanged state. -/
theorem c3_collision_blocks (s : GState) (e : Obj) (d : Dir) (hit : Obj)
    (hguard : dirGuard d e = false)
    (hfind : detect_collision s.mobs (dirDest d e).1 (dirDest d e).2 = some hit) :
    moveDir s e d = MoveRes.collision hit ∧
    hit ∈ s.mobs ∧ hit.x = (dirDest d e).1 ∧ hit.y = (dirDest d e).2 ∧
    moveCaught s e d = s := by
  have hmv : moveDir s e d = MoveRes.collision hit := by
    unfold moveDir
    rw [if_neg (by simp [hguard]), hfind]
  have hp := List.find?_some (by unfold detect_collision at hfind; exact hfind)
  simp only [Bool.and_eq_true, beq_iff_eq] at hp
  refine ⟨hmv, ?_, hp.1, hp.2, ?_⟩
  · exact List.mem_of_find?_eq_some (by unfold detect_collision at hfind; exact hfind)
  · unfold moveCaught
    rw [hmv]

/-- Witness for C3: a mob at `(5, 5)` moves up into a mob at `(5, 4)`;
the move fails with a collision carrying the blocker and changes
nothing. -/
theorem c3_witness :
    (dirGuard Dir.up w3mover = false ∧
     detect_collision w3state.mobs (dirDest Dir.up w3mover).1
       (dirDest Dir.up w3mover).2 = some w3blocker) ∧
    (moveDir w3state w3mover Dir.up = MoveRes.collision w3blocker ∧
     w3blocker ∈ w3state.mobs ∧ w3blocker.x = (dirDest Dir.up w3mover).1 ∧
     w3blocker.y = (dirDest Dir.up w3mover).2 ∧
     moveCaught w3state w3mover Dir.up = w3state) :=
  ⟨⟨by decide, by decide⟩,
    c3_collision_blocks w3state w3mover Dir.up w3blocker (by decide) (by decide)⟩

/-- C4, refuted as stated: in a state satisfying the one-entity-per-cell
invariant (player at `(10, 10)`, one mob at `(10, 9)`), the player's
upward fire — one of the game's operations — commits and spawns a bullet
on the mob's cell, so collision detection does not preserve the
invariant across every operation. -/
theorem c4_counterexample :
    oneEntityPerCell c4state ∧
    ∃ s2, fireDir c4state c4player Dir.up = some s2 ∧ ¬ oneEntityPerCell s2 := by
  refine ⟨by decide, (fireDir c4state c4player Dir.up).get (by decide),
    (Option.some_get _).symm, ?_⟩
  decide

/-- C4 (amended): directional moves do preserve pairwise-distinct cells
among the live-entity set — a committed move lands on a cell free of
every live entity — but the full invariant including the player is not
enforced (movers may enter the player's cell, see C3), and fire actions
may spawn a bullet onto an occupied cell (see the C4 counterexample). -/
theorem c4_moves_preserve_distinct (s : GState) (e : Obj) (d : Dir) (s2 : GState) (e2 : Obj)
    (hids : (idsOf s.mobs).Nodup) (hd : mobsDistinct s.mobs)
    (hm : moveDir s e d = MoveRes.moved s2 e2) :
    mobsDistinct s2.mobs ∧ ∀ m ∈ s.mobs, ¬ sameCell e2 m := by
  obtain ⟨hg, hdc, he2, g1, hg1, g2, hg2, hs2⟩ := moveDir_moved_inv s e d s2 e2 hm
  have hfree : ∀ m ∈ s.mobs, ¬ (m.x = (dirDest d e).1 ∧ m.y = (dirDest d e).2) := by
    intro m hmem
    have := List.find?_eq_none.mp (by unfold detect_collision at hdc; exact hdc) m hmem
    simpa [Bool.and_eq_true, beq_iff_eq] using this
  have hcell : ∀ m ∈ s.mobs, ¬ sameCell e2 m := by
    intro m hmem hsc
    exact hfree m hmem ⟨by rw [← hsc.1, he2], by rw [← hsc.2, he2]⟩
  refine ⟨?_, hcell⟩
  have hmobs : s2.mobs = updateById s.mobs e2 := by rw [hs2]
  rw [hmobs]
  unfold updateById mobsDistinct
  rw [List.pairwise_map]
  refine hd.imp_of_mem ?_
  intro a b hma hmb hab
  by_cases haid : (a.id == e2.id) = true
  · by_cases hbid : (b.id == e2.id) = true
    · rw [if_pos haid, if_pos hbid]
      have hae : a = b := eq_of_mem_of_id_eq hids hma hmb
        ((beq_iff_eq.mp haid).trans (beq_iff_eq.mp hbid).symm)
      subst hae
      exact absurd ⟨rfl, rfl⟩ hab
    · rw [if_pos haid, if_neg hbid]
      exact fun hsc => hcell b hmb hsc
  · by_cases hbid : (b.id == e2.id) = true
    · rw [if_neg haid, if_pos hbid]
      intro hsc
      exact hcell a hma ⟨hsc.1.symm, hsc.2.symm⟩
    · rw [if_neg haid, if_neg hbid]
      exact hab

/-- Witness for C4: a lone mob at `(7, 5)` moves up; distinct cells are
preserved and the mover's landing cell was free of live entities. -/
theorem c4_witness :
    ∃ s2 e2, moveDir w4state w4mob Dir.up = MoveRes.moved s2 e2 ∧
      mobsDistinct s2.mobs ∧ ∀ m ∈ w4state.mobs, ¬ sameCell e2 m := by
  have hk : moveKind (moveDir w4state w4mob Dir.up) = 0 := by decide
  cases hm : moveDir w4state w4mob Dir.up with
  | moved s2 e2 =>
    obtain ⟨h1, h2⟩ :=
      c4_moves_preserve_distinct w4state w4mob Dir.up s2 e2 (by decide) (by decide) hm
    exact ⟨s2, e2, rfl, h1, h2⟩
  | noop => rw [hm] at hk; simp [moveKind] at hk
  | collision hit => rw [hm] at hk; simp [moveKind] at hk
  | crash => rw [hm] at hk; simp [moveKind] at hk

/-- C2, refuted as stated: in the C2 scenario no jitter draw fires, the
horizontal offset is negative and the first horizontal draw passes (so
the horizontal step acts), the vertical offset is also negative and
every further draw would pass a 0.4 check — so under the claim the tick
would produce a horizontal and a vertical action — yet the procedure
performs exactly one action: the `return self.move_left()` ends
`Mob.move` before the vertical axis is ever evaluated. -/
theorem c2_counterexample :
    (10 ≤ c2draws 0 ∧ 10 ≤ c2draws 1 ∧ 10 ≤ c2draws 2 ∧ 10 ≤ c2draws 3) ∧
    c2state.player.x - c2mob.x < 0 ∧
    c2draws 4 < 40 ∧
    c2state.player.y - c2mob.y < 0 ∧
    (∀ j, 4 ≤ j → c2draws j < 40) ∧
    mobActs (mob_move c2state c2mob c2draws 0) = [Act.moveLeft] := by
  refine ⟨by decide, by decide, by decide, by decide, ?_, by decide⟩
  intro j hj
  unfold c2draws
  rw [if_neg (by omega)]
  decide

/-- Helper: a `return self.move_X()` contributes at most one action. -/
theorem retMove_acts_len (s : GState) (m : Obj) (d : Dir) (a : Act) (k : Nat) :
    (mobActs (retMove s m d a k)).length ≤ 1 := by
  unfold retMove
  cases moveDir s m d <;> simp [mobActs]

/-- Helper: a `return self.fire_X()` contributes at most one action. -/
theorem retFire_acts_len (s : GState) (m : Obj) (d : Dir) (a : Act) (k : Nat) :
    (mobActs (retFire s m d a k)).length ≤ 1 := by
  unfold retFire
  cases fireDir s m d <;> simp [mobActs]

/-- Helper: the vertical axis step performs at most one action. -/
theorem mobVertical_acts_len (s : GState) (m : Obj) (rng : Nat → Nat) (k : Nat) :
    (mobActs (mobVertical s m rng k)).length ≤ 1 := by
  unfold mobVertical
  split_ifs <;> first
    | exact retMove_acts_len s m Dir.up Act.moveUp (k+1)
    | exact retFire_acts_len s m Dir.up Act.fireUp (k+2)
    | exact retMove_acts_len s m Dir.down Act.moveDown (k+1)
    | exact retFire_acts_len s m Dir.down Act.fireDown (k+2)
    | simp [mobActs]

/-- Helper: the horizontal axis step, together with the fall-through to
the vertical step, performs at most one action. -/
theorem mobHorizontal_acts_len (s : GState) (m : Obj) (rng : Nat → Nat) (k : Nat) :
    (mobActs (mobHorizontal s m rng k)).length ≤ 1 := by
  unfold mobHorizontal
  split_ifs <;> first
    | exact retMove_acts_len s m Dir.left Act.moveLeft (k+1)
    | exact retFire_acts_len s m Dir.left Act.fireLeft (k+2)
    | exact retMove_acts_len s m Dir.right Act.moveRight (k+1)
    | exact retFire_acts_len s m Dir.right Act.fireRight (k+2)
    | exact mobVertical_acts_len s m rng (k+2)
    | exact mobVertical_acts_len s m rng k

/-- C2 (amended): each `return` inside `Mob.move` ends the whole
decision procedure, so the vertical axis step runs only when the
horizontal step took no action; a single mob's tick therefore attempts
zero or one action, never two. -/
theorem c2_at_most_one_action (s : GState) (m : Obj) (rng : Nat → Nat) (k : Nat) :
    (mobActs (mob_move s m rng k)).length ≤ 1 := by
  unfold mob_move
  split_ifs <;> first
    | exact retMove_acts_len s m Dir.left Act.moveLeft (k+1)
    | exact retMove_acts_len s m Dir.right Act.moveRight (k+2)
    | exact retMove_acts_len s m Dir.up Act.moveUp (k+3)
    | exact retMove_acts_len s m Dir.down Act.moveDown (k+4)
    | exact mobHorizontal_acts_len s m rng (k+4)

/-- Helper: a committed move changes only the mover's position fields. -/
theorem moveDir_moved_fields (s : GState) (e : Obj) (d : Dir) (s2 : GState) (e2 : Obj)
    (hm : moveDir s e d = MoveRes.moved s2 e2) :
    e2.id = e.id ∧ e2.character = e.character ∧ e2.dx = e.dx ∧ e2.dy = e.dy := by
  obtain ⟨-, -, he2, -⟩ := moveDir_moved_inv s e d s2 e2 hm
  subst he2
  exact ⟨rfl, rfl, rfl, rfl⟩

/-- Helper: when a single-axis bullet's `try` block ends in a collision,
the collision came from its only applicable move, which raised before
mutating anything: the carried state and bullet are the originals. -/
theorem bulletTry_collided_single (s : GState) (b : Obj) (s2 : GState) (b2 hit : Obj)
    (hax : singleAxis b) (h : bulletTry s b = TryRes.collided s2 b2 hit) :
    s2 = s ∧ b2 = b := by
  rcases hax with ⟨hdx, hdy | hdy⟩ | ⟨hdy, hdx | hdx⟩
  · cases hmv : moveDir s b Dir.up with
    | moved s3 b3 =>
      obtain ⟨hid, hch, hdx3, hdy3⟩ := moveDir_moved_fields s b Dir.up s3 b3 hmv
      simp [bulletTry, stepIf, hmv, hdx, hdy, hdx3, hdy3] at h
    | noop => simp [bulletTry, stepIf, hmv, hdx, hdy] at h
    | collision hit2 =>
      simp [bulletTry, stepIf, hmv, hdx, hdy] at h
      exact ⟨h.1.symm, h.2.1.symm⟩
    | crash => simp [bulletTry, stepIf, hmv, hdx, hdy] at h
  · cases hmv : moveDir s b Dir.down with
    | moved s3 b3 =>
      obtain ⟨hid, hch, hdx3, hdy3⟩ := moveDir_moved_fields s b Dir.down s3 b3 hmv
      simp [bulletTry, stepIf, hmv, hdx, hdy, hdx3, hdy3] at h
    | noop => simp [bulletTry, stepIf, hmv, hdx, hdy] at h
    | collision hit2 =>
      simp [bulletTry, stepIf, hmv, hdx, hdy] at h
      exact ⟨h.1.symm, h.2.1.symm⟩
    | crash => simp [bulletTry, stepIf, hmv, hdx, hdy] at h
  · cases hmv : moveDir s b Dir.right with
    | moved s3 b3 =>
      obtain ⟨hid, hch, hdx3, hdy3⟩ := moveDir_moved_fields s b Dir.right s3 b3 hmv
      simp [bulletTry, stepIf, hmv, hdx, hdy, hdx3, hdy3] at h
    | noop => simp [bulletTry, stepIf, hmv, hdx, hdy] at h
    | collision hit2 =>
      simp [bulletTry, stepIf, hmv, hdx, hdy] at h
      exact ⟨h.1.symm, h.2.1.symm⟩
    | crash => simp [bulletTry, stepIf, hmv, hdx, hdy] at h
  · cases hmv : moveDir s b Dir.left with
    | moved s3 b3 =>
      obtain ⟨hid, hch, hdx3, hdy3⟩ := moveDir_moved_fields s b Dir.left s3 b3 hmv
      simp [bulletTry, stepIf, hmv, hdx, hdy, hdx3, hdy3] at h
    | noop => simp [bulletTry, stepIf, hmv, hdx, hdy] at h
    | collision hit2 =>
      simp [bulletTry, stepIf, hmv, hdx, hdy] at h
      exact ⟨h.1.symm, h.2.1.symm⟩
    | crash => simp [bulletTry, stepIf, hmv, hdx, hdy] at h

/-- Helper: removing the object with another id keeps a member in the
live-entity list. -/
theorem mem_removeById_of_ne {ms : List Obj} {m : Obj} {i : Nat}
    (hm : m ∈ ms) (hne : m.id ≠ i) : m ∈ removeById ms i := by
  induction ms with
  | nil => cases hm
  | cons c t ih =>
    unfold removeById
    by_cases hc : (c.id == i) = true
    · rw [if_pos hc]
      rcases List.mem_cons.mp hm with h | h
      · subst h
        exact absurd (beq_iff_eq.mp hc) hne
      · exact h
    · rw [if_neg hc]
      rcases List.mem_cons.mp hm with h | h
      · subst h
        exact List.mem_cons_self m (removeById t i)
      · exact List.mem_cons_of_mem c (ih h)

/-- C7: when a single-axis bullet's move raises a collision carrying a
non-player entity at an in-bounds cell, the struck entity's cell is
blanked (and no other cell changes), a kill notification naming the
struck entity is emitted, the struck entity is removed from the
live-entity set (first occurrence of its identity, if present), and the
bullet itself — not removed — keeps its membership, position and
velocity unchanged, as does every other live entity with a different
identity. -/
theorem c7_kill_on_collision (s : GState) (b : Obj) (s2 : GState) (b2 hit : Obj)
    (hax : singleAxis b) (hcol : bulletTry s b = TryRes.collided s2 b2 hit)
    (hnp : hit.id ≠ s.player.id) (wf : gridWF s.grid)
    (hhx0 : 0 ≤ hit.x) (hhx1 : hit.x < (WIDTH : Int))
    (hhy0 : 0 ≤ hit.y) (hhy1 : hit.y < (HEIGHT : Int)) :
    ∃ g1, gridRender s.grid hit.x hit.y ' ' = some g1 ∧
      bullet_move s b = StepRes.ok { s with grid := g1
                                          , mobs := removeById s.mobs hit.id
                                          , notes := s.notes ++ [Note.killed hit.id] } ∧
      cellAt g1 hit.x.toNat hit.y.toNat = some ' ' ∧
      (∀ u v : Nat, ¬(u = hit.x.toNat ∧ v = hit.y.toNat) →
        cellAt g1 u v = cellAt s.grid u v) ∧
      (∀ m ∈ s.mobs, m.id ≠ hit.id → m ∈ removeById s.mobs hit.id) := by
  obtain ⟨hs2, hb2⟩ := bulletTry_collided_single s b s2 b2 hit hax hcol
  rw [hs2, hb2] at hcol
  obtain ⟨g1, hg1, wf1, hc1, ho1⟩ :=
    gridRender_ok s.grid hit.x hit.y ' ' wf hhx0 hhx1 hhy0 hhy1
  refine ⟨g1, hg1, ?_, hc1, ho1, fun m hm hne => mem_removeById_of_ne hm hne⟩
  unfold bullet_move
  simp only [hcol, hg1, if_neg (show ¬((hit.id == s.player.id) = true) from by simp [hnp])]

/-- Witness for C7: a bullet at `(5, 6)` moving up strikes a mob at
`(5, 5)`: the mob's cell is blanked, the kill is recorded, the mob
leaves the live-entity set and the bullet stays in it unchanged. -/
theorem c7_witness :
    (singleAxis w7bullet ∧
     bulletTry w7state w7bullet = TryRes.collided w7state w7bullet w7mob ∧
     w7mob.id ≠ w7state.player.id) ∧
    ∃ g1, gridRender w7state.grid w7mob.x w7mob.y ' ' = some g1 ∧
      bullet_move w7state w7bullet = StepRes.ok { w7state with grid := g1
                                                             , mobs := removeById w7state.mobs w7mob.id
                                                             , notes := w7state.notes ++ [Note.killed w7mob.id] } ∧
      cellAt g1 w7mob.x.toNat w7mob.y.toNat = some ' ' ∧
      (∀ u v : Nat, ¬(u = w7mob.x.toNat ∧ v = w7mob.y.toNat) →
        cellAt g1 u v = cellAt w7state.grid u v) ∧
      (∀ m ∈ w7state.mobs, m.id ≠ w7mob.id → m ∈ removeById w7state.mobs w7mob.id) :=
  ⟨⟨by decide, by decide, by decide⟩,
    c7_kill_on_collision w7state w7bullet w7state w7bullet w7mob (by decide) (by decide)
      (by decide) (by decide) (by decide) (by decide) (by decide) (by decide)⟩

/-- C1: the loss terminal transition (the `"You died."` notification
followed by immediate process termination) occurs exactly when the
collision raised during a bullet's move carries an entity with the
player's identity (and the blanking render does not itself crash);
when it occurs during the mob/bullet phase the pass stops at once — no
later entity is processed — and the exited state's last notification is
the loss notification. -/
theorem c1_loss_iff_player_hit :
    (∀ (s : GState) (b : Obj),
      (∃ s2, bullet_move s b = StepRes.exited s2) ↔
      (∃ s2 b2 hit, bulletTry s b = TryRes.collided s2 b2 hit ∧ hit.id = s2.player.id ∧
        gridRender s2.grid hit.x hit.y ' ' ≠ none)) ∧
    (∀ (fuel : Nat) (s : GState) (i : Nat) (rng : Nat → Nat) (k : Nat) (log : List Nat)
       (b : Obj) (s2 : GState),
      s.mobs[i]? = some b → b.kind = Kind.bullet → bullet_move s b = StepRes.exited s2 →
      handleMobsFrom (fuel + 1) s i rng k log = PhaseRes.exited s2 (log ++ [b.id])) ∧
    (∀ (s : GState) (b : Obj) (s2 : GState), bullet_move s b = StepRes.exited s2 →
      ∃ pre, s2.notes = pre ++ [Note.youDied]) := by
  have hmain : ∀ (s : GState) (b : Obj) (s2 : GState), bullet_move s b = StepRes.exited s2 →
      ∃ s3 b3 hit, bulletTry s b = TryRes.collided s3 b3 hit ∧ hit.id = s3.player.id ∧
        gridRender s3.grid hit.x hit.y ' ' ≠ none ∧ ∃ pre, s2.notes = pre ++ [Note.youDied] := by
    intro s b s2 h
    unfold bullet_move at h
    cases hbt : bulletTry s b with
    | cont s3 b3 => rw [hbt] at h; cases h
    | crash => rw [hbt] at h; cases h
    | collided s3 b3 hit =>
      rw [hbt] at h
      cases hg1 : gridRender s3.grid hit.x hit.y ' ' with
      | none => simp only [hg1] at h; cases h
      | some g1 =>
        simp only [hg1] at h
        by_cases hid : (hit.id == s3.player.id) = true
        · rw [if_pos hid] at h
          cases h
          exact ⟨s3, b3, hit, rfl, beq_iff_eq.mp hid, by simp [hg1], s3.notes, rfl⟩
        · rw [if_neg hid] at h
          cases h
  refine ⟨?_, ?_, ?_⟩
  · intro s b
    constructor
    · intro ⟨s2, h⟩
      obtain ⟨s3, b3, hit, h1, h2, h3, -⟩ := hmain s b s2 h
      exact ⟨s3, b3, hit, h1, h2, h3⟩
    · intro ⟨s3, b3, hit, hbt, hid, hrender⟩
      cases hg1 : gridRender s3.grid hit.x hit.y ' ' with
      | none => exact absurd hg1 hrender
      | some g1 =>
        refine ⟨{ s3 with grid := g1, notes := s3.notes ++ [Note.youDied] }, ?_⟩
        unfold bullet_move
        simp only [hbt, hg1, if_pos (beq_iff_eq.mpr hid)]
  · intro fuel s i rng k log b s2 hi hk hbm
    unfold handleMobsFrom
    simp only [hi, hk, hbm]
  · intro s b s2 h
    obtain ⟨-, -, -, -, -, -, hpre⟩ := hmain s b s2 h
    exact hpre

/-- Witness for C1: in a state where the player object itself sits in
the live-entity list (as `mobs.append(player)` would leave it) at
`(10, 10)` and a bullet at `(10, 11)` moves up into it, the bullet's
move exits the process; invoked from the mob/bullet pass, the pass
terminates at once with the loss notification recorded last. -/
theorem c1_witness :
    w1state.mobs[1]? = some w1bullet ∧ w1bullet.kind = Kind.bullet ∧
    ∃ s2, bullet_move w1state w1bullet = StepRes.exited s2 ∧
      handleMobsFrom 5 w1state 1 c9draws 0 [] = PhaseRes.exited s2 [w1bullet.id] ∧
      ∃ pre, s2.notes = pre ++ [Note.youDied] := by
  refine ⟨by decide, by decide, ?_⟩
  obtain ⟨s2, hs2⟩ := (c1_loss_iff_player_hit.1 w1state w1bullet).mpr
    ⟨w1state, w1bullet, w1player, by decide, by decide, by decide⟩
  refine ⟨s2, hs2, ?_, c1_loss_iff_player_hit.2.2 w1state w1bullet s2 hs2⟩
  have h := c1_loss_iff_player_hit.2.1 4 w1state 1 c9draws 0 [] w1bullet s2
    (by decide) (by decide) hs2
  simpa using h

/-- Helper: replacing an object in place does not change the id
sequence. -/
theorem idsOf_updateById (ms : List Obj) (e : Obj) :
    idsOf (updateById ms e) = idsOf ms := by
  unfold idsOf updateById
  rw [List.map_map]
  apply List.map_congr_left
  intro m hm
  by_cases h : (m.id == e.id) = true
  · simp [h, (beq_iff_eq.mp h).symm]
  · have hne : ¬ m.id = e.id := by simpa using h
    simp [hne]

/-- Helper: removing an object yields a subsequence of the id
sequence. -/
theorem idsOf_removeById_sublist (ms : List Obj) (i : Nat) :
    List.Sublist (idsOf (removeById ms i)) (idsOf ms) := by
  induction ms with
  | nil => exact List.Sublist.refl _
  | cons c t ih =>
    unfold removeById
    by_cases h : (c.id == i) = true
    · rw [if_pos h]
      exact List.sublist_cons_self c.id (idsOf t)
    · rw [if_neg h]
      exact List.Sublist.cons₂ c.id ih

/-- Helper: an `idStep` from unchanged ids and counter. -/
theorem idStep_of_eq {s s2 : GState} (h1 : idsOf s2.mobs = idsOf s.mobs)
    (h2 : s2.nextId = s.nextId) : idStep s s2 :=
  Or.inl ⟨h1 ▸ List.Sublist.refl _, h2⟩

/-- Helper: a committed move leaves the id sequence and counter
unchanged. -/
theorem moveDir_ids (s : GState) (e : Obj) (d : Dir) (s2 : GState) (e2 : Obj)
    (hm : moveDir s e d = MoveRes.moved s2 e2) :
    idsOf s2.mobs = idsOf s.mobs ∧ s2.nextId = s.nextId := by
  obtain ⟨-, -, -, g1, -, g2, -, hs2⟩ := moveDir_moved_inv s e d s2 e2 hm
  rw [hs2]
  exact ⟨idsOf_updateById s.mobs e2, rfl⟩

/-- Helper: a successful fire appends exactly the fresh id. -/
theorem fireDir_ids (s : GState) (e : Obj) (d : Dir) (s2 : GState)
    (hf : fireDir s e d = some s2) :
    idsOf s2.mobs = idsOf s.mobs ++ [s.nextId] ∧ s2.nextId = s.nextId + 1 := by
  rw [fireDir_eq] at hf
  cases hg : gridRender s.grid (fireParams d e).1 (fireParams d e).2.1 (fireParams d e).2.2.1 with
  | none => rw [hg] at hf; cases hf
  | some g2 =>
    rw [hg] at hf
    cases hf
    constructor
    · unfold idsOf
      rw [List.map_append]
      rfl
    · rfl

/-- Helper: a `return self.move_X()` satisfies the step predicate. -/
theorem retMove_ok (s : GState) (m : Obj) (d : Dir) (a : Act) (k : Nat) :
    mobResOk s (retMove s m d a k) := by
  unfold retMove
  cases hmv : moveDir s m d with
  | moved s2 e2 =>
    obtain ⟨h1, h2⟩ := moveDir_ids s m d s2 e2 hmv
    exact idStep_of_eq h1 h2
  | noop => exact idStep_of_eq rfl rfl
  | collision hit => exact idStep_of_eq rfl rfl
  | crash => trivial

/-- Helper: a `return self.fire_X()` satisfies the step predicate. -/
theorem retFire_ok (s : GState) (m : Obj) (d : Dir) (a : Act) (k : Nat) :
    mobResOk s (retFire s m d a k) := by
  unfold retFire
  cases hf : fireDir s m d with
  | none => trivial
  | some s2 =>
    obtain ⟨h1, h2⟩ := fireDir_ids s m d s2 hf
    exact Or.inr ⟨h1, h2⟩

/-- Helper: the vertical axis step satisfies the step predicate. -/
theorem mobVertical_ok (s : GState) (m : Obj) (rng : Nat → Nat) (k : Nat) :
    mobResOk s (mobVertical s m rng k) := by
  unfold mobVertical
  split_ifs <;> first
    | exact retMove_ok s m Dir.up Act.moveUp (k+1)
    | exact retFire_ok s m Dir.up Act.fireUp (k+2)
    | exact retMove_ok s m Dir.down Act.moveDown (k+1)
    | exact retFire_ok s m Dir.down Act.fireDown (k+2)
    | exact idStep_of_eq rfl rfl

/-- Helper: the horizontal axis step satisfies the step predicate. -/
theorem mobHorizontal_ok (s : GState) (m : Obj) (rng : Nat → Nat) (k : Nat) :
    mobResOk s (mobHorizontal s m rng k) := by
  unfold mobHorizontal
  split_ifs <;> first
    | exact retMove_ok s m Dir.left Act.moveLeft (k+1)
    | exact retFire_ok s m Dir.left Act.fireLeft (k+2)
    | exact retMove_ok s m Dir.right Act.moveRight (k+1)
    | exact retFire_ok s m Dir.right Act.fireRight (k+2)
    | exact mobVertical_ok s m rng (k+2)
    | exact mobVertical_ok s m rng k

/-- Helper: the whole mob decision procedure satisfies the step
predicate. -/
theorem mob_move_ok (s : GState) (m : Obj) (rng : Nat → Nat) (k : Nat) :
    mobResOk s (mob_move s m rng k) := by
  unfold mob_move
  split_ifs <;> first
    | exact retMove_ok s m Dir.left Act.moveLeft (k+1)
    | exact retMove_ok s m Dir.right Act.moveRight (k+2)
    | exact retMove_ok s m Dir.up Act.moveUp (k+3)
    | exact retMove_ok s m Dir.down Act.moveDown (k+4)
    | exact mobHorizontal_ok s m rng (k+4)

/-- Helper: one conditional bullet move preserves the try predicate. -/
theorem stepIf_ok (s : GState) (p : Obj → Bool) (d : Dir) (r : TryRes)
    (h : tryResOk s r) : tryResOk s (stepIf p d r) := by
  cases r with
  | cont s2 b2 =>
    simp only [stepIf]
    by_cases hp : p b2 = true
    · rw [if_pos hp]
      cases hmv : moveDir s2 b2 d with
      | moved s3 b3 =>
        obtain ⟨h1, h2⟩ := moveDir_ids s2 b2 d s3 b3 hmv
        exact ⟨h1.trans h.1, h2.trans h.2⟩
      | noop => exact h
      | collision hit => exact h
      | crash => trivial
    · rw [if_neg hp]
      exact h
  | collided s2 b2 hit =>
    simp only [stepIf]
    exact h
  | crash =>
    simp only [stepIf]
    trivial

/-- Helper: the bullet `try` block preserves the try predicate. -/
theorem bulletTry_ok (s : GState) (b : Obj) : tryResOk s (bulletTry s b) := by
  unfold bulletTry
  exact stepIf_ok s _ Dir.left _ (stepIf_ok s _ Dir.right _ (stepIf_ok s _ Dir.down _
    (stepIf_ok s _ Dir.up _ ⟨rfl, rfl⟩)))

/-- Helper: a normally returning `Bullet.move` is an `idStep`. -/
theorem bullet_move_idStep (s : GState) (b : Obj) (s2 : GState)
    (h : bullet_move s b = StepRes.ok s2) : idStep s s2 := by
  have hok := bulletTry_ok s b
  unfold bullet_move at h
  cases hbt : bulletTry s b with
  | cont s3 b3 =>
    rw [hbt] at h hok
    cases h
    exact idStep_of_eq hok.1 hok.2
  | crash => rw [hbt] at h; cases h
  | collided s3 b3 hit =>
    rw [hbt] at h hok
    cases hg : gridRender s3.grid hit.x hit.y ' ' with
    | none => simp only [hg] at h; cases h
    | some g1 =>
      simp only [hg] at h
      by_cases hid : (hit.id == s3.player.id) = true
      · rw [if_pos hid] at h
        cases h
      · rw [if_neg hid] at h
        cases h
        refine Or.inl ⟨?_, hok.2⟩
        have hsub := idsOf_removeById_sublist s3.mobs hit.id
        rw [hok.1] at hsub
        exact hsub

/-- Helper: the id of the entity fetched at the cursor, read off the id
sequence. -/
theorem idsOf_getElem (ms : List Obj) (i : Nat) (e : Obj) (he : ms[i]? = some e) :
    (idsOf ms)[i]? = some e.id := by
  unfold idsOf
  rw [List.getElem?_map, he]
  rfl

/-- Helper: the logged entity was not logged before, and entities past
the cursor stay unlogged after an `idStep`. -/
theorem phaseInv_step (s s2 : GState) (i : Nat) (log : List Nat) (e : Obj)
    (hinv : phaseInv s i log) (he : s.mobs[i]? = some e) (hstep : idStep s s2) :
    phaseInv s2 (i+1) (log ++ [e.id]) := by
  obtain ⟨h1, h2, h3, h4, h5⟩ := hinv
  have hgl : (idsOf s.mobs)[i]? = some e.id := idsOf_getElem s.mobs i e he
  have hiL : i < (idsOf s.mobs).length := (List.getElem?_eq_some.mp hgl).1
  have hgi : (idsOf s.mobs)[i] = e.id := by
    obtain ⟨h, hh⟩ := List.getElem?_eq_some.mp hgl
    exact hh
  have hmemL : e.id ∈ idsOf s.mobs := hgi ▸ List.getElem_mem hiL
  have hdropcons : (idsOf s.mobs).drop i = e.id :: (idsOf s.mobs).drop (i+1) := by
    rw [List.drop_eq_getElem_cons hiL, hgi]
  have hnotlog : e.id ∉ log := h4 e.id (by rw [hdropcons]; exact List.mem_cons_self _ _)
  have hdropnodup : ((idsOf s.mobs).drop i).Nodup := h1.sublist (List.drop_sublist i _)
  have hid_tail : e.id ∉ (idsOf s.mobs).drop (i+1) := by
    rw [hdropcons] at hdropnodup
    exact (List.nodup_cons.mp hdropnodup).1
  have htail : ∀ a ∈ (idsOf s.mobs).drop (i+1), a ∉ log ∧ a ≠ e.id := by
    intro a ha
    refine ⟨h4 a (by rw [hdropcons]; exact List.mem_cons_of_mem _ ha), ?_⟩
    intro hae
    exact hid_tail (hae ▸ ha)
  have hlog2 : (log ++ [e.id]).Nodup := by
    rw [List.nodup_append]
    exact ⟨h5, List.nodup_singleton _, fun a ha hb =>
      hnotlog ((List.mem_singleton.mp hb) ▸ ha)⟩
  rcases hstep with ⟨hsub, hnid⟩ | ⟨happ, hnid⟩
  · refine ⟨h1.sublist hsub, ?_, ?_, ?_, hlog2⟩
    · intro a ha
      rw [hnid]
      exact h2 a (hsub.mem ha)
    · intro a ha
      rw [hnid]
      rcases List.mem_append.mp ha with ha | ha
      · exact h3 a ha
      · rw [List.mem_singleton.mp ha]
        exact h2 _ hmemL
    · intro a ha
      have ha2 : a ∈ (idsOf s.mobs).drop (i+1) := (hsub.drop (i+1)).mem ha
      obtain ⟨hal, hae⟩ := htail a ha2
      intro hmem
      rcases List.mem_append.mp hmem with hmem | hmem
      · exact hal hmem
      · exact hae (List.mem_singleton.mp hmem)
  · have hfresh : s.nextId ∉ idsOf s.mobs := fun hmem => absurd (h2 _ hmem) (by omega)
    refine ⟨?_, ?_, ?_, ?_, hlog2⟩
    · rw [happ, List.nodup_append]
      exact ⟨h1, List.nodup_singleton _, fun a ha hb =>
        hfresh ((List.mem_singleton.mp hb) ▸ ha)⟩
    · intro a ha
      rw [happ] at ha
      rw [hnid]
      rcases List.mem_append.mp ha with ha | ha
      · have := h2 a ha
        omega
      · rw [List.mem_singleton.mp ha]
        omega
    · intro a ha
      rw [hnid]
      rcases List.mem_append.mp ha with ha | ha
      · have := h3 a ha
        omega
      · rw [List.mem_singleton.mp ha]
        have := h2 _ hmemL
        omega
    · intro a ha
      rw [happ, List.drop_append_of_le_length (by omega)] at ha
      intro hmem
      rcases List.mem_append.mp ha with ha | ha
      · obtain ⟨hal, hae⟩ := htail a ha
        rcases List.mem_append.mp hmem with hmem | hmem
        · exact hal hmem
        · exact hae (List.mem_singleton.mp hmem)
      · rw [List.mem_singleton.mp ha] at hmem
        rcases List.mem_append.mp hmem with hmem | hmem
        · exact absurd (h3 _ hmem) (by omega)
        · have := h2 _ hmemL
          have := List.mem_singleton.mp hmem
          omega

/-- Helper: the log of the `handle_mobs` cursor loop never repeats an
id, whatever the pass encounters. -/
theorem handleMobsFrom_log_nodup (fuel : Nat) :
    ∀ (s : GState) (i : Nat) (rng : Nat → Nat) (k : Nat) (log : List Nat),
      phaseInv s i log → (phaseLog (handleMobsFrom fuel s i rng k log)).Nodup := by
  induction fuel with
  | zero =>
    intro s i rng k log hinv
    exact hinv.2.2.2.2
  | succ fuel2 ih =>
    intro s i rng k log hinv
    unfold handleMobsFrom
    cases he : s.mobs[i]? with
    | none =>
      simp only [he]
      exact hinv.2.2.2.2
    | some e =>
      simp only [he]
      have hlog2 : (log ++ [e.id]).Nodup := by
        have h := phaseInv_step s s i log e hinv he (idStep_of_eq rfl rfl)
        exact h.2.2.2.2
      cases hk : e.kind with
      | mob =>
        have hok := mob_move_ok s e rng k
        cases hmm : mob_move s e rng k with
        | done s2 k2 acts =>
          rw [hmm] at hok
          exact ih s2 (i+1) rng k2 (log ++ [e.id]) (phaseInv_step s s2 i log e hinv he hok)
        | collided s2 k2 acts =>
          rw [hmm] at hok
          exact ih s2 (i+1) rng k2 (log ++ [e.id]) (phaseInv_step s s2 i log e hinv he hok)
        | crash => exact hlog2
      | bullet =>
        cases hbm : bullet_move s e with
        | ok s2 =>
          exact ih s2 (i+1) rng k (log ++ [e.id])
            (phaseInv_step s s2 i log e hinv he (bullet_move_idStep s e s2 hbm))
        | exited s2 => exact hlog2
        | crash => exact hlog2
      | plain => exact hlog2

/-- C9 (amended): every entity is invoked at most once per `handle_mobs`
pass — the invocation log never repeats an identity — but not exactly
once: when a bullet's collision removes an entity at an index before the
cursor, the list shifts and a start-of-phase entity is skipped
entirely (see the C9 counterexample), and bullets appended during the
pass are additionally invoked in the same pass. -/
theorem c9_at_most_once (fuel : Nat) (s : GState) (rng : Nat → Nat) (k : Nat)
    (hids : (idsOf s.mobs).Nodup) (hlt : ∀ a ∈ idsOf s.mobs, a < s.nextId) :
    ∀ a : Nat, (phaseLog (handle_mobs fuel s rng k)).count a ≤ 1 := by
  intro a
  have h := handleMobsFrom_log_nodup fuel s 0 rng k []
    ⟨hids, hlt, by simp, by simp, List.nodup_nil⟩
  exact List.nodup_iff_count_le_one.mp h a

/-- C9, refuted as stated: in the C9 scenario (mob `M1` with id 1, a
bullet with id 2 about to strike it, mob `M2` with id 3, all present at
phase start), the pass logs invocations `[1, 2]` only: the bullet's kill
removes `M1` at index 0 while the cursor is at 1, the list shrinks to
two elements, the next fetch at index 2 falls off the end, and `M2` —
a member of the live-entity set at the start of the phase — is never
invoked. -/
theorem c9_counterexample :
    idsOf c9state.mobs = [1, 2, 3] ∧ (idsOf c9state.mobs).Nodup ∧
    phaseLog (handle_mobs 10 c9state c9draws 0) = [1, 2] ∧
    3 ∉ phaseLog (handle_mobs 10 c9state c9draws 0) := by
  decide

/-- Witness for C9: the amended statement applied to a one-mob state. -/
theorem c9_witness :
    ((idsOf w9state.mobs).Nodup ∧ ∀ a ∈ idsOf w9state.mobs, a < w9state.nextId) ∧
    (phaseLog (handle_mobs 5 w9state c9draws 0)).count 1 ≤ 1 :=
  ⟨⟨by decide, by decide⟩, c9_at_most_once 5 w9state c9draws 0 (by decide) (by decide) 1⟩

/-- Witness for C10: the shooter stands on the top row at `(10, 0)` and
fires up; the bullet's glyph lands on the bottom row at `(10, 19)` and
the bullet itself sits at `(10, -1)`. -/
theorem c10_witness :
    (gridWF w10state.grid ∧ inBounds w10shooter ∧ w10shooter.y = 0) ∧
    ∃ s2, fireDir w10state w10shooter Dir.up = some s2 ∧
      cellAt s2.grid w10shooter.x.toNat (HEIGHT - 1) = some '"' ∧
      ∃ b2 ∈ s2.mobs, b2.x = w10shooter.x ∧ b2.y = -1 :=
  ⟨⟨by decide, by decide, by decide⟩,
    (c10_render_wrap_and_fail.2.2.2.2.2.2.1) w10state w10shooter (by decide) (by decide) (by decide)⟩

end Flyboy
